import Mathlib

/-!
Shallow embedding of the single-cycle RISC-V simulator found in `src/JS/script.js`.

The engine state (`Processor`), the decoder (`parseInstruction`, `getOpcodeValue`,
`getFunct3`, `getFunct7`), the ALU (`executeALU`) and the execution engine
(`executeInstruction`, `stepExecution`, `resetProcessor`, `deleteInstruction`)
are translated function by function.  JavaScript numeric conventions are modeled
explicitly:

* register/memory cells hold exact integers (`Int`); every value the program
  stores is an exact JS double well below 2^53, so `Int` is a faithful carrier;
* `n | 0` (ToInt32) is `toSigned32`, `n >>> 0` (ToUint32) is `toUint32`,
  `Math.floor(a / 4)` is `Int.fdiv a 4`, and the JS `%` operator (sign of the
  dividend) is `Int.tmod`;
* a parsed operand is an `Option Int`: `none` stands for JS `NaN` (a token with
  no digits) and also for `undefined` (a missing operand).  Every consumption of
  such a value in the modeled engine either coerces it to 0 (ALU operands via
  ToInt32, which maps both `NaN` and `undefined` to 0) or skips the register
  write (a write to key `NaN`/`undefined` is a property write that no integer
  register index can observe), so the collapse is invisible to the claims;
* the register file and memory are total maps `Int → Int`.  JavaScript arrays
  yield `undefined` when reading a never-written out-of-range index; the model
  reads 0 there.  Every modeled claim either reads only indices that were
  initialized/written or pipes the read through the ALU coercion (where
  `undefined` also becomes 0), so no settled claim depends on the difference.

DOM/UI functions (`updateUI`, `addToLog`s rendering part, event listeners) are
presentation glue with no effect on the engine state and are not modeled.
-/

set_option maxRecDepth 10000

/-- JS `parseInt` on the characters of a token (decimal): skip leading
whitespace, read an optional sign, then a maximal prefix of decimal digits;
`none` models `NaN` (no digits at all).  The hex auto-detection of `parseInt`
is not modeled: no instruction text handled by the claims uses a hex literal. -/
def leadDigitsAux : List Char → Nat → Nat
  | [], acc => acc
  | c :: cs, acc => if c.isDigit then leadDigitsAux cs (acc * 10 + (c.toNat - 48)) else acc

/-- Maximal prefix of decimal digits, `none` when the first character is not a digit. -/
def leadDigits : List Char → Option Nat
  | [] => none
  | c :: cs => if c.isDigit then some (leadDigitsAux (c :: cs) 0) else none

/-- JS `parseInt(token)` for decimal tokens, `none` = `NaN`. -/
def jsParseInt (cs0 : List Char) : Option Int :=
  let cs := cs0.dropWhile Char.isWhitespace
  match cs with
  | '-' :: rest => (leadDigits rest).map fun n => -(n : Int)
  | '+' :: rest => (leadDigits rest).map fun n => (n : Int)
  | _ => (leadDigits cs).map fun n => (n : Int)

/-- JS `String.prototype.trim` on a character list. -/
def jsTrim (cs : List Char) : List Char :=
  ((cs.dropWhile Char.isWhitespace).reverse.dropWhile Char.isWhitespace).reverse

/-- Split on runs of whitespace, discarding empty fragments: the behavior of
JS `split(/\s+/)` on an already-trimmed string (and on the empty string the JS
code produces a `['']` whose head is the empty mnemonic, which `headD` below
reproduces). -/
def splitWsAux : List Char → List Char → List (List Char)
  | [], acc => if acc.isEmpty then [] else [acc.reverse]
  | c :: cs, acc =>
    if c.isWhitespace then
      if acc.isEmpty then splitWsAux cs [] else acc.reverse :: splitWsAux cs []
    else splitWsAux cs (c :: acc)

/-- Split a character list on whitespace runs. -/
def splitWs (cs : List Char) : List (List Char) := splitWsAux cs []

/-- `parseInstruction(instrText)` from `script.js`: trim, lower-case, strip all
commas, split on whitespace; the first token is the mnemonic, the remaining
tokens are operands (`x`-prefixed tokens parse the digits after the `x` as a
register index, anything else parses as an immediate). -/
def parseInstruction (instrText : String) : String × List (Option Int) :=
  let cleaned := ((jsTrim instrText.toList).map Char.toLower).filter (fun c => c ≠ ',')
  let parts := splitWs cleaned
  let mnemonic := String.mk (parts.headD [])
  let regs := parts.tail.map fun r =>
    match r with
    | 'x' :: rest => jsParseInt rest
    | _ => jsParseInt r
  (mnemonic, regs)

/-- The mnemonics present in the opcode lookup table of `getOpcodeValue`. -/
def supportedMnemonics : List String :=
  ["add", "sub", "and", "or", "xor", "slt", "sltu", "sll", "srl", "sra",
   "addi", "andi", "ori", "xori", "slti", "sltiu", "slli", "srli", "srai",
   "lw", "lh", "lb", "lhu", "lbu",
   "sw", "sh", "sb",
   "beq", "bne", "blt", "bge", "bltu", "bgeu"]

/-- `getOpcodeValue(mnemonic)`: the opcode table of `script.js`, grouped by the
value each mnemonic maps to (51 = 0b0110011 R, 19 = 0b0010011 I, 3 = load,
35 = store, 99 = branch); a missing mnemonic yields the `|| 0` default. -/
def getOpcodeValue (mnemonic : String) : Nat :=
  if mnemonic ∈ ["add", "sub", "and", "or", "xor", "slt", "sltu", "sll", "srl", "sra"] then 51
  else if mnemonic ∈ ["addi", "andi", "ori", "xori", "slti", "sltiu", "slli", "srli", "srai"] then 19
  else if mnemonic ∈ ["lw", "lh", "lb", "lhu", "lbu"] then 3
  else if mnemonic ∈ ["sw", "sh", "sb"] then 35
  else if mnemonic ∈ ["beq", "bne", "blt", "bge", "bltu", "bgeu"] then 99
  else 0

/-- `getFunct3(mnemonic)`: the funct3 table of `script.js`, grouped by value;
a missing mnemonic yields the `|| 0` default. -/
def getFunct3 (mnemonic : String) : Nat :=
  if mnemonic ∈ ["add", "sub", "addi", "lb", "sb", "beq"] then 0
  else if mnemonic ∈ ["sll", "slli", "lh", "sh", "bne"] then 1
  else if mnemonic ∈ ["slt", "slti", "lw", "sw"] then 2
  else if mnemonic ∈ ["sltu", "sltiu"] then 3
  else if mnemonic ∈ ["xor", "xori", "lbu", "blt"] then 4
  else if mnemonic ∈ ["srl", "sra", "srli", "srai", "lhu", "bge"] then 5
  else if mnemonic ∈ ["or", "ori", "bltu"] then 6
  else if mnemonic ∈ ["and", "andi", "bgeu"] then 7
  else 0

/-- `getFunct7(mnemonic)`: 32 = 0b0100000 for `sub`/`sra`/`srai`, else 0. -/
def getFunct7 (mnemonic : String) : Nat :=
  if mnemonic ∈ ["sub", "sra", "srai"] then 32 else 0

/-- JS `n | 0` (ToInt32) on an exact integer: reduce modulo 2^32 into
`[-2^31, 2^31)`. -/
def toSigned32 (n : Int) : Int := (n + 2147483648) % 4294967296 - 2147483648

/-- JS `n >>> 0` (ToUint32) on an exact integer: reduce modulo 2^32 into
`[0, 2^32)`. -/
def toUint32 (n : Int) : Int := n % 4294967296

/-- The 32-bit two's-complement bit pattern of an integer, as a `Nat`. -/
def toNat32 (n : Int) : Nat := (n % 4294967296).toNat

/-- JS shift-amount masking `b & 0x1F` on an int32 value. -/
def shamt5 (b : Int) : Nat := (b % 32).toNat

/-- JS `a ^ b` on int32 values: bitwise xor of the 32-bit patterns, read back signed. -/
def xor32 (a b : Int) : Int := toSigned32 (Int.ofNat (Nat.xor (toNat32 a) (toNat32 b)))

/-- JS `a | b` on int32 values. -/
def or32 (a b : Int) : Int := toSigned32 (Int.ofNat (Nat.lor (toNat32 a) (toNat32 b)))

/-- JS `a & b` on int32 values. -/
def and32 (a b : Int) : Int := toSigned32 (Int.ofNat (Nat.land (toNat32 a) (toNat32 b)))

/-- `executeALU(op, a, b, funct3, funct7)` from `script.js`.  Both operands are
first coerced to int32 (`toSigned32`, the `| 0` in the source); dispatch is on
`funct3` with `funct7` disambiguating ADD/SUB and SRL/SRA.  Note that the JS
`a + b` / `a - b` results are exact doubles: they are NOT reduced back to the
32-bit range (`sll` is, because `<<` returns an int32; `srl` returns a Uint32). -/
def executeALU (_op : String) (a0 b0 : Int) (funct3 funct7 : Nat) : Int :=
  let a := toSigned32 a0
  let b := toSigned32 b0
  if funct3 = 0 then
    if funct7 = 32 then a - b else a + b
  else if funct3 = 1 then toSigned32 (a * (2 ^ shamt5 b))
  else if funct3 = 2 then if a < b then 1 else 0
  else if funct3 = 3 then if toUint32 a < toUint32 b then 1 else 0
  else if funct3 = 4 then xor32 a b
  else if funct3 = 5 then
    if funct7 = 32 then Int.fdiv a (2 ^ shamt5 b)
    else Int.fdiv (toUint32 a) (2 ^ shamt5 b)
  else if funct3 = 6 then or32 a b
  else if funct3 = 7 then and32 a b
  else 0

/-- The `switch (funct3)` condition evaluation of the branch class in
`executeInstruction` (values are the raw register contents, not coerced;
the unsigned variants apply `>>> 0` to both sides). -/
def branchTaken (funct3 : Nat) (val1 val2 : Int) : Bool :=
  if funct3 = 0 then val1 == val2
  else if funct3 = 1 then val1 != val2
  else if funct3 = 4 then decide (val1 < val2)
  else if funct3 = 5 then decide (val1 ≥ val2)
  else if funct3 = 6 then decide (toUint32 val1 < toUint32 val2)
  else if funct3 = 7 then decide (toUint32 val1 ≥ toUint32 val2)
  else false

/-- The control-signal record of `processor.controlSignals`. -/
structure ControlSignals where
  RegWrite : Bool
  ALUSrc : Bool
  MemWrite : Bool
  MemRead : Bool
  MemToReg : Bool
  Branch : Bool
  ALUOp : String
deriving Repr, DecidableEq

/-- The per-cycle internal values of `processor.internals`. -/
structure Internals where
  instruction : String
  opcode : Nat
  rd : Nat
  rs1 : Nat
  rs2 : Nat
  funct3 : Nat
  funct7 : Nat
  imm : Int
  aluResult : Int
  readData1 : Int
  readData2 : Int
  memData : Int
deriving Repr, DecidableEq

/-- The mutable engine state of the `processor` object.  Registers and memory
are total maps from JS numeric index to stored value (see the header comment
for the treatment of out-of-range indices). -/
structure Processor where
  registers : Int → Int
  memory : Int → Int
  pc : Int
  instructions : List String
  controlSignals : ControlSignals
  internals : Internals
  executionLog : List String
  isRunning : Bool

/-- `regs[i]` on the parsed operand list: out-of-range yields `undefined` (`none`). -/
def getOp (regs : List (Option Int)) (i : Nat) : Option Int := regs.getD i none

/-- Read `processor.registers[idx]` where `idx` is a parsed operand.  A `none`
index is a JS `registers[NaN]`/`registers[undefined]` property read yielding
`undefined`; every modeled consumer coerces that to 0, which we do here. -/
def readReg (f : Int → Int) : Option Int → Int
  | some i => f i
  | none => 0

/-- The guarded register write `if (rd !== 0) registers[rd] = v`.  A `none`
destination is a JS property write to key `NaN`/`undefined`, invisible to every
integer register index, hence a no-op on the modeled map. -/
def writeReg (f : Int → Int) (rd : Option Int) (v : Int) : Int → Int :=
  match rd with
  | some r => if r = 0 then f else fun i => if i = r then v else f i
  | none => f

/-- JS `x || d` on a parsed operand: `undefined`, `NaN` and `0` are all falsy. -/
def jsOr (o : Option Int) (d : Int) : Int :=
  match o with
  | some n => if n = 0 then d else n
  | none => d

/-- Render an operand inside a template literal (`none` prints as the JS `NaN`;
the `undefined` spelling difference is not observed by any claim). -/
def showOp : Option Int → String
  | some n => toString n
  | none => "NaN"

/-- JS `String.prototype.toUpperCase` (ASCII). -/
def toUpperStr (s : String) : String := String.mk (s.toList.map Char.toUpper)

/-- Control signals for the R class. -/
def rTypeSignals : ControlSignals := { RegWrite := true, ALUSrc := false, MemWrite := false, MemRead := false, MemToReg := false, Branch := false, ALUOp := "10" }

/-- Control signals for the I class. -/
def iTypeSignals : ControlSignals := { RegWrite := true, ALUSrc := true, MemWrite := false, MemRead := false, MemToReg := false, Branch := false, ALUOp := "10" }

/-- Control signals for the Load class. -/
def loadSignals : ControlSignals := { RegWrite := true, ALUSrc := true, MemWrite := false, MemRead := true, MemToReg := true, Branch := false, ALUOp := "00" }

/-- Control signals for the Store class. -/
def storeSignals : ControlSignals := { RegWrite := false, ALUSrc := true, MemWrite := true, MemRead := false, MemToReg := false, Branch := false, ALUOp := "00" }

/-- Control signals for the Branch class. -/
def branchSignals : ControlSignals := { RegWrite := false, ALUSrc := false, MemWrite := false, MemRead := false, MemToReg := false, Branch := true, ALUOp := "01" }

/-- The all-false control signals of the initial/reset state. -/
def idleSignals : ControlSignals := { RegWrite := false, ALUSrc := false, MemWrite := false, MemRead := false, MemToReg := false, Branch := false, ALUOp := "00" }

/-- The all-zero internals of the initial/reset state. -/
def zeroInternals : Internals := { instruction := "", opcode := 0, rd := 0, rs1 := 0, rs2 := 0, funct3 := 0, funct7 := 0, imm := 0, aluResult := 0, readData1 := 0, readData2 := 0, memData := 0 }

/-- The decode + per-class dispatch part of `executeInstruction()` from
`script.js` (everything after the bounds check and fetch), as a state
transformer.  The `updateUI`/`updateExecutionLog` calls are DOM-only and
dropped; `addToLog` is inlined as the append to `executionLog`. -/
def execDecoded (s : Processor) (mnemonic : String) (regs : List (Option Int)) : Processor :=
    let opcodeValue := getOpcodeValue mnemonic
    let funct3 := getFunct3 mnemonic
    let funct7 := getFunct7 mnemonic
    if opcodeValue = 51 then
      -- R-type: regs = (rd, rs1, rs2)
      let rd := getOp regs 0
      let rs1 := getOp regs 1
      let rs2 := getOp regs 2
      let val1 := readReg s.registers rs1
      let val2 := readReg s.registers rs2
      let aluResult := executeALU mnemonic val1 val2 funct3 funct7
      let newPC := s.pc + 1
      let logMessage := toUpperStr mnemonic ++ " x" ++ showOp rd ++ ", x" ++ showOp rs1 ++
        ", x" ++ showOp rs2 ++ " → x" ++ showOp rd ++ " = " ++ toString aluResult
      { s with
        registers := writeReg s.registers rd aluResult
        pc := newPC
        controlSignals := rTypeSignals
        internals := { s.internals with readData1 := val1, readData2 := val2, aluResult := aluResult }
        executionLog := s.executionLog ++ ["[" ++ toString (newPC - 1) ++ "] " ++ logMessage] }
    else if opcodeValue = 19 then
      -- I-type: regs = (rd, rs1, imm)
      let rd := getOp regs 0
      let rs1 := getOp regs 1
      let imm := getOp regs 2
      let val1 := readReg s.registers rs1
      let immV := readReg (fun _ => 0) imm
      let aluResult := executeALU mnemonic val1 (match imm with | some v => v | none => 0) funct3 funct7
      let newPC := s.pc + 1
      let logMessage := toUpperStr mnemonic ++ " x" ++ showOp rd ++ ", x" ++ showOp rs1 ++
        ", " ++ showOp imm ++ " → x" ++ showOp rd ++ " = " ++ toString aluResult
      { s with
        registers := writeReg s.registers rd aluResult
        pc := newPC
        controlSignals := iTypeSignals
        internals := { s.internals with readData1 := val1, readData2 := immV, imm := immV, aluResult := aluResult }
        executionLog := s.executionLog ++ ["[" ++ toString (newPC - 1) ++ "] " ++ logMessage] }
    else if opcodeValue = 3 then
      -- Load: regs = (rd, rs1, offset)
      let rd := getOp regs 0
      let rs1 := getOp regs 1
      let offset := jsOr (getOp regs 2) 0
      let addr := readReg s.registers rs1 + offset
      let memIndex := Int.tmod (Int.fdiv addr 4) 256
      let memValue := s.memory memIndex
      let newPC := s.pc + 1
      let logMessage := toUpperStr mnemonic ++ " x" ++ showOp rd ++ ", " ++ toString offset ++
        "(x" ++ showOp rs1 ++ ") → x" ++ showOp rd ++ " = MEM[" ++ toString addr ++ "] = " ++
        toString memValue
      { s with
        registers := writeReg s.registers rd memValue
        pc := newPC
        controlSignals := loadSignals
        internals := { s.internals with readData1 := readReg s.registers rs1, imm := offset, aluResult := addr, memData := memValue }
        executionLog := s.executionLog ++ ["[" ++ toString (newPC - 1) ++ "] " ++ logMessage] }
    else if opcodeValue = 35 then
      -- Store: regs = (rs2, rs1, offset)
      let rs2 := getOp regs 0
      let rs1 := getOp regs 1
      let offset := jsOr (getOp regs 2) 0
      let addr := readReg s.registers rs1 + offset
      let memIndex := Int.tmod (Int.fdiv addr 4) 256
      let storedValue := readReg s.registers rs2
      let newPC := s.pc + 1
      let logMessage := toUpperStr mnemonic ++ " x" ++ showOp rs2 ++ ", " ++ toString offset ++
        "(x" ++ showOp rs1 ++ ") → MEM[" ++ toString addr ++ "] = " ++ toString storedValue
      { s with
        memory := fun i => if i = memIndex then storedValue else s.memory i
        pc := newPC
        controlSignals := storeSignals
        internals := { s.internals with readData1 := readReg s.registers rs1, readData2 := storedValue, imm := offset, aluResult := addr }
        executionLog := s.executionLog ++ ["[" ++ toString (newPC - 1) ++ "] " ++ logMessage] }
    else if opcodeValue = 99 then
      -- Branch: regs = (rs1, rs2, offset), offset defaulting to 1 via `||`
      let rs1 := getOp regs 0
      let rs2 := getOp regs 1
      let offset := jsOr (getOp regs 2) 1
      let val1 := readReg s.registers rs1
      let val2 := readReg s.registers rs2
      let take := branchTaken funct3 val1 val2
      let newPC := if take then s.pc + offset else s.pc + 1
      let logMessage :=
        if take then
          toUpperStr mnemonic ++ " x" ++ showOp rs1 ++ ", x" ++ showOp rs2 ++ ", " ++
            toString offset ++ " → SALTO TOMADO (PC = " ++ toString newPC ++ ")"
        else
          toUpperStr mnemonic ++ " x" ++ showOp rs1 ++ ", x" ++ showOp rs2 ++ ", " ++
            toString offset ++ " → SALTO NO TOMADO"
      { s with
        pc := newPC
        controlSignals := branchSignals
        internals := { s.internals with readData1 := val1, readData2 := val2, imm := offset }
        executionLog := s.executionLog ++ ["[" ++ toString (newPC - 1) ++ "] " ++ logMessage] }
    else
      -- Unrecognized opcode 0 (or any other value): fall through every class
      -- check; only the common tail runs: pc := pc + 1 and the log line with
      -- an empty message.
      let newPC := s.pc + 1
      { s with
        pc := newPC
        executionLog := s.executionLog ++ ["[" ++ toString (newPC - 1) ++ "] "] }

/-- `executeInstruction()` is the in-bounds check followed by fetch, decode and
the class dispatch of `execDecoded`. -/
def executeInstruction (s : Processor) : Processor :=
  if s.pc ≥ Int.ofNat s.instructions.length then
    { s with executionLog := s.executionLog ++ ["⚠ Fin del programa"], isRunning := false }
  else
    let parsed := parseInstruction (s.instructions.getD s.pc.toNat "")
    execDecoded s parsed.1 parsed.2

/-- The initial `processor` object literal. -/
def initialProcessor : Processor :=
  { registers := fun _ => 0
    memory := fun _ => 0
    pc := 0
    instructions := ["addi x1, x0, 10", "addi x2, x0, 20", "add x3, x1, x2", "sub x4, x2, x1"]
    controlSignals := idleSignals
    internals := zeroInternals
    executionLog := []
    isRunning := false }

/-- `stepExecution()`: execute one instruction only while `pc` is in bounds. -/
def stepExecution (s : Processor) : Processor :=
  if s.pc < Int.ofNat s.instructions.length then executeInstruction s else s

/-- Iterate `stepExecution` (a sequence of step-button presses). -/
def stepN : Nat → Processor → Processor
  | 0, s => s
  | n + 1, s => stepN n (stepExecution s)

/-- `resetProcessor()`: zero registers and memory, pc 0, empty log, cancel the
run flag, restore the control signals and internals; the program list is NOT
touched by the source. -/
def resetProcessor (s : Processor) : Processor :=
  { s with
    registers := fun _ => 0
    memory := fun _ => 0
    pc := 0
    executionLog := []
    isRunning := false
    controlSignals := idleSignals
    internals := zeroInternals }

/-- `deleteInstruction(index)`: splice the instruction out, then reset `pc` to 0
when it is `>=` the new length. -/
def deleteInstruction (index : Nat) (s : Processor) : Processor :=
  let remaining := s.instructions.eraseIdx index
  if s.pc ≥ Int.ofNat remaining.length then
    { s with instructions := remaining, pc := 0 }
  else
    { s with instructions := remaining }

/-- A fresh engine whose program list is `prog` (used to set up scenarios). -/
def withProgram (prog : List String) : Processor :=
  { initialProcessor with instructions := prog }


/-! ## Helper lemmas -/

/-- A register write never touches index 0: the destination is either a nonzero
integer index or a non-integer property key. -/
theorem writeReg_zero (f : Int → Int) (rd : Option Int) (v : Int) :
    writeReg f rd v 0 = f 0 := by
  cases rd with
  | none => rfl
  | some r =>
    by_cases h : r = 0
    · simp [writeReg, h]
    · simp [writeReg, h, Ne.symm h]

/-- The class dispatch leaves register 0 untouched, whatever the decoded
mnemonic and operands. -/
theorem execDecoded_reg0 (s : Processor) (m : String) (regs : List (Option Int)) :
    (execDecoded s m regs).registers 0 = s.registers 0 := by
  simp only [execDecoded]
  repeat' split
  all_goals simp [writeReg_zero]

/-- One executed instruction leaves register 0 untouched, whatever the program. -/
theorem executeInstruction_reg0 (s : Processor) :
    (executeInstruction s).registers 0 = s.registers 0 := by
  simp only [executeInstruction]
  split
  · rfl
  · exact execDecoded_reg0 s _ _

/-- One `stepExecution` leaves register 0 untouched. -/
theorem stepExecution_reg0 (s : Processor) :
    (stepExecution s).registers 0 = s.registers 0 := by
  unfold stepExecution
  split
  · exact executeInstruction_reg0 s
  · rfl

/-- Any number of steps leaves register 0 untouched. -/
theorem stepN_reg0 (n : Nat) (s : Processor) :
    (stepN n s).registers 0 = s.registers 0 := by
  induction n generalizing s with
  | zero => rfl
  | succ n ih => rw [stepN, ih, stepExecution_reg0]

/-! ## Claims -/

/-- C2: for every program and every sequence of step executions, register 0 is
never mutated: starting from any state in which `registers[0] = 0` (in
particular the initial state of any program), after any number of executed
instructions — R-class, I-class and Load destinations `x0` included —
`registers[0]` still equals 0. -/
theorem register_zero_never_mutated (s : Processor) (n : Nat) (h : s.registers 0 = 0) :
    (stepN n s).registers 0 = 0 := by
  rw [stepN_reg0, h]

/-- Witness for C2 at the starter program after 6 steps. -/
theorem register_zero_never_mutated_witness :
    (stepN 6 initialProcessor).registers 0 = 0 :=
  register_zero_never_mutated initialProcessor 6 rfl

/-- C4: executing the starter program `addi x1, x0, 10`; `addi x2, x0, 20`;
`add x3, x1, x2`; `sub x4, x2, x1` from the initial all-zero state yields
`x1 = 10`, `x2 = 20`, `x3 = 30`, `x4 = 10`, `pc = 4`, and exactly 4 trace
log entries. -/
theorem starter_program_roundtrip :
    (stepN 4 initialProcessor).registers 1 = 10 ∧
    (stepN 4 initialProcessor).registers 2 = 20 ∧
    (stepN 4 initialProcessor).registers 3 = 30 ∧
    (stepN 4 initialProcessor).registers 4 = 10 ∧
    (stepN 4 initialProcessor).pc = 4 ∧
    (stepN 4 initialProcessor).executionLog.length = 4 := by
  decide

/-- C1 counterexample: the ALU does not wrap additions modulo 2^32.  Running
`addi x1, x0, 2147483647` then `add x2, x1, x1` stores 4294967294 in `x2`:
a value outside the signed 32-bit range (so the result was promoted to a wider
width), while the claimed wraparound semantics would store
`toSigned32 (2147483647 + 2147483647) = -2`. -/
theorem add_overflow_not_wrapped :
    (stepN 2 (withProgram ["addi x1, x0, 2147483647", "add x2, x1, x1"])).registers 2
        = 4294967294 ∧
    ¬ ((4294967294 : Int) < 2147483648) ∧
    toSigned32 (2147483647 + 2147483647) = -2 := by
  decide

/-- C8: `resetProcessor` is idempotent, and regardless of prior execution
history it zeroes every register and memory word, sets `pc = 0`, empties the
trace log, and cancels any in-flight run (`isRunning = false`). -/
theorem reset_idempotent_initial_snapshot (s : Processor) :
    resetProcessor (resetProcessor s) = resetProcessor s ∧
    (∀ i : Int, (resetProcessor s).registers i = 0) ∧
    (∀ i : Int, (resetProcessor s).memory i = 0) ∧
    (resetProcessor s).pc = 0 ∧
    (resetProcessor s).executionLog = [] ∧
    (resetProcessor s).isRunning = false :=
  ⟨rfl, fun _ => rfl, fun _ => rfl, rfl, rfl, rfl⟩

/-- C9 counterexample: with the two-instruction program and `pc = 1`, removing
instruction 0 leaves a program of length 1; the new `pc` does not exceed that
length (`¬ 1 > 1`), yet the code resets `pc` to 0 instead of leaving it at 1. -/
theorem delete_pc_equal_length_reset :
    (deleteInstruction 0
        { withProgram ["addi x1, x0, 1", "addi x2, x0, 2"] with pc := 1 }).instructions.length
      = 1 ∧
    ¬ ((1 : Int) > (1 : Int)) ∧
    (deleteInstruction 0
        { withProgram ["addi x1, x0, 1", "addi x2, x0, 2"] with pc := 1 }).pc = 0 := by
  decide

/-- C9 amended: `deleteInstruction` splices the indexed instruction out of the
program; if afterwards `pc` is greater than **or equal to** the new length
(i.e. `pc` is no longer a valid index), `pc` is reset to 0 (not clamped to the
new end); otherwise `pc` is left unchanged. -/
theorem delete_adjusts_pc (s : Processor) (index : Nat) :
    (deleteInstruction index s).instructions = s.instructions.eraseIdx index ∧
    (Int.ofNat (s.instructions.eraseIdx index).length ≤ s.pc →
      (deleteInstruction index s).pc = 0) ∧
    (s.pc < Int.ofNat (s.instructions.eraseIdx index).length →
      (deleteInstruction index s).pc = s.pc) := by
  unfold deleteInstruction
  by_cases h : s.pc ≥ Int.ofNat (s.instructions.eraseIdx index).length
  · rw [if_pos h]
    exact ⟨rfl, fun _ => rfl, fun hlt => absurd h (by omega)⟩
  · rw [if_neg h]
    exact ⟨rfl, fun hle => absurd hle h, fun _ => rfl⟩

/-- Witness for C9 amended: both arms exercised on concrete states. -/
theorem delete_adjusts_pc_witness :
    (deleteInstruction 0
        { withProgram ["addi x1, x0, 1", "addi x2, x0, 2"] with pc := 1 }).pc = 0 ∧
    (deleteInstruction 1
        { withProgram ["addi x1, x0, 1", "addi x2, x0, 2"] with pc := 0 }).pc = 0 :=
  ⟨(delete_adjusts_pc
      { withProgram ["addi x1, x0, 1", "addi x2, x0, 2"] with pc := 1 } 0).2.1 (by decide),
   (delete_adjusts_pc
      { withProgram ["addi x1, x0, 1", "addi x2, x0, 2"] with pc := 0 } 1).2.2 (by decide)⟩

/-- Executing with `pc` in bounds is the class dispatch on the decoded fetch. -/
theorem executeInstruction_fetch (s : Processor) (t : String)
    (h1 : s.pc < Int.ofNat s.instructions.length)
    (h2 : s.instructions.getD s.pc.toNat "" = t) :
    executeInstruction s
      = execDecoded s (parseInstruction t).1 (parseInstruction t).2 := by
  unfold executeInstruction
  rw [if_neg (by omega), h2]

/-- `toUint32` of an int32-range negative value is that value plus 2^32. -/
theorem toUint32_neg {a : Int} (h1 : -4294967296 ≤ a) (h2 : a < 0) :
    toUint32 a = a + 4294967296 := by
  unfold toUint32
  omega

/-- `toUint32` is the identity on `[0, 2^32)`. -/
theorem toUint32_nonneg {a : Int} (h1 : 0 ≤ a) (h2 : a < 4294967296) :
    toUint32 a = a := by
  unfold toUint32
  omega

/-- `toSigned32` is the identity on the signed 32-bit range. -/
theorem toSigned32_of_range {a : Int} (h1 : -2147483648 ≤ a) (h2 : a < 2147483648) :
    toSigned32 a = a := by
  unfold toSigned32
  omega

/-- C7: the unsigned comparisons `sltu` (in the ALU) and `bltu`/`bgeu` (in the
branch condition evaluation) interpret their operands as unsigned 32-bit
values: a negative signed 32-bit value compares strictly larger than any
non-negative signed 32-bit value. -/
theorem unsigned_compare_negative_larger (a b : Int)
    (ha1 : -2147483648 ≤ a) (ha2 : a < 0) (hb1 : 0 ≤ b) (hb2 : b < 2147483648) :
    executeALU "sltu" a b (getFunct3 "sltu") (getFunct7 "sltu") = 0 ∧
    executeALU "sltu" b a (getFunct3 "sltu") (getFunct7 "sltu") = 1 ∧
    branchTaken (getFunct3 "bltu") a b = false ∧
    branchTaken (getFunct3 "bltu") b a = true ∧
    branchTaken (getFunct3 "bgeu") a b = true ∧
    branchTaken (getFunct3 "bgeu") b a = false := by
  have e1 : getFunct3 "sltu" = 3 := rfl
  have e2 : getFunct3 "bltu" = 6 := rfl
  have e3 : getFunct3 "bgeu" = 7 := rfl
  have e4 : getFunct7 "sltu" = 0 := rfl
  have hsa : toSigned32 a = a := toSigned32_of_range ha1 (by omega)
  have hsb : toSigned32 b = b := toSigned32_of_range (by omega) hb2
  have hua : toUint32 a = a + 4294967296 := toUint32_neg (by omega) ha2
  have hub : toUint32 b = b := toUint32_nonneg hb1 (by omega)
  rw [e1, e2, e3, e4]
  simp only [executeALU, branchTaken, hsa, hsb]
  norm_num
  repeat' constructor
  all_goals omega

/-- Witness for C7 at `a = -1`, `b = 1`. -/
theorem unsigned_compare_negative_larger_witness :
    executeALU "sltu" (-1) 1 (getFunct3 "sltu") (getFunct7 "sltu") = 0 ∧
    executeALU "sltu" 1 (-1) (getFunct3 "sltu") (getFunct7 "sltu") = 1 ∧
    branchTaken (getFunct3 "bltu") (-1) 1 = false ∧
    branchTaken (getFunct3 "bltu") 1 (-1) = true ∧
    branchTaken (getFunct3 "bgeu") (-1) 1 = true ∧
    branchTaken (getFunct3 "bgeu") 1 (-1) = false :=
  unsigned_compare_negative_larger (-1) 1 (by norm_num) (by norm_num) (by norm_num) (by norm_num)

/-- A mnemonic absent from the lookup table decodes to the sentinel opcode 0. -/
theorem getOpcodeValue_of_not_supported {m : String} (h : m ∉ supportedMnemonics) :
    getOpcodeValue m = 0 := by
  simp only [supportedMnemonics, List.mem_cons, List.not_mem_nil, or_false] at h
  push_neg at h
  obtain ⟨e1, e2, e3, e4, e5, e6, e7, e8, e9, e10, e11, e12, e13, e14, e15, e16, e17,
    e18, e19, e20, e21, e22, e23, e24, e25, e26, e27, e28, e29, e30, e31, e32, e33⟩ := h
  simp [getOpcodeValue, e1, e2, e3, e4, e5, e6, e7, e8, e9, e10, e11, e12, e13, e14, e15,
    e16, e17, e18, e19, e20, e21, e22, e23, e24, e25, e26, e27, e28, e29, e30, e31, e32, e33]

/-- C3: an instruction whose mnemonic is not in the supported lookup table
decodes to opcode 0, falls through every class check, advances `pc` by exactly
1, leaves registers and memory untouched, and appends only the meaningless
bracketed-pc log line with an empty message. -/
theorem unknown_mnemonic_noop (s : Processor) (t m : String) (regs : List (Option Int))
    (h1 : s.pc < Int.ofNat s.instructions.length)
    (h2 : s.instructions.getD s.pc.toNat "" = t)
    (h3 : parseInstruction t = (m, regs))
    (h4 : m ∉ supportedMnemonics) :
    getOpcodeValue m = 0 ∧
    (executeInstruction s).registers = s.registers ∧
    (executeInstruction s).memory = s.memory ∧
    (executeInstruction s).pc = s.pc + 1 ∧
    (executeInstruction s).executionLog
      = s.executionLog ++ ["[" ++ toString s.pc ++ "] "] := by
  have hz : getOpcodeValue m = 0 := getOpcodeValue_of_not_supported h4
  rw [executeInstruction_fetch s t h1 h2, h3]
  simp only [execDecoded, hz]
  norm_num


/-- Witness for C3: the unsupported mnemonic `foo` executes as a pc-advancing
no-op from the initial state. -/
theorem unknown_mnemonic_noop_witness :
    getOpcodeValue "foo" = 0 ∧
    (executeInstruction (withProgram ["foo x1, x2"])).registers
      = (withProgram ["foo x1, x2"]).registers ∧
    (executeInstruction (withProgram ["foo x1, x2"])).memory
      = (withProgram ["foo x1, x2"]).memory ∧
    (executeInstruction (withProgram ["foo x1, x2"])).pc
      = (withProgram ["foo x1, x2"]).pc + 1 ∧
    (executeInstruction (withProgram ["foo x1, x2"])).executionLog
      = (withProgram ["foo x1, x2"]).executionLog
        ++ ["[" ++ toString (withProgram ["foo x1, x2"]).pc ++ "] "] :=
  unknown_mnemonic_noop (withProgram ["foo x1, x2"]) "foo x1, x2" "foo" [some 1, some 2]
    (by decide) rfl rfl (by decide)

/-- C6: executing `beq x1, x2, 2` at the current `pc` sets the next `pc` to
`pc + 2` when `registers[1] = registers[2]` and to `pc + 1` otherwise (the
offset is added to the current, not-yet-incremented instruction index). -/
theorem beq_offset_two (s : Processor)
    (h1 : s.pc < Int.ofNat s.instructions.length)
    (h2 : s.instructions.getD s.pc.toNat "" = "beq x1, x2, 2") :
    (executeInstruction s).pc
      = if s.registers 1 = s.registers 2 then s.pc + 2 else s.pc + 1 := by
  rw [executeInstruction_fetch s _ h1 h2]
  have hp : parseInstruction "beq x1, x2, 2" = ("beq", [some 1, some 2, some 2]) := rfl
  have hop : getOpcodeValue "beq" = 99 := rfl
  have hf3 : getFunct3 "beq" = 0 := rfl
  rw [hp]
  simp only [execDecoded, hop, hf3]
  norm_num [getOp, readReg, jsOr, branchTaken, beq_iff_eq]

/-- Witness for C6 (registers equal, branch taken from the initial state). -/
theorem beq_offset_two_witness :
    (executeInstruction (withProgram ["beq x1, x2, 2"])).pc
      = if (withProgram ["beq x1, x2, 2"]).registers 1
            = (withProgram ["beq x1, x2, 2"]).registers 2
        then (withProgram ["beq x1, x2, 2"]).pc + 2
        else (withProgram ["beq x1, x2, 2"]).pc + 1 :=
  beq_offset_two (withProgram ["beq x1, x2, 2"]) (by decide) rfl

/-- C10: a branch instruction whose third operand is the explicit integer 0 is
executed with offset 1 (the `|| 1` default treats explicit 0 as absent), so
whether taken or not the next `pc` is the current `pc` plus 1. -/
theorem branch_zero_offset_as_one (s : Processor) (t m : String) (regs : List (Option Int))
    (h1 : s.pc < Int.ofNat s.instructions.length)
    (h2 : s.instructions.getD s.pc.toNat "" = t)
    (h3 : parseInstruction t = (m, regs))
    (h4 : getOpcodeValue m = 99)
    (h5 : getOp regs 2 = some 0) :
    (executeInstruction s).pc = s.pc + 1 := by
  rw [executeInstruction_fetch s t h1 h2, h3]
  simp only [execDecoded, h4, h5]
  norm_num [jsOr, ite_self]

/-- Witness for C10: `beq x0, x0, 0` is a taken branch (x0 = x0) whose explicit
offset 0 still advances `pc` by exactly 1. -/
theorem branch_zero_offset_as_one_witness :
    (executeInstruction (withProgram ["beq x0, x0, 0"])).pc
      = (withProgram ["beq x0, x0, 0"]).pc + 1 :=
  branch_zero_offset_as_one (withProgram ["beq x0, x0, 0"]) "beq x0, x0, 0" "beq"
    [some 0, some 0, some 0] (by decide) rfl rfl rfl rfl

/-- C5: for any prior register and memory contents, executing `sw x5, 0(x6)`
then `lw x7, 0(x6)` leaves `registers[7]` equal to the value `registers[5]`
had before the store.  (Both instructions compute the same effective address,
so the load reads back exactly the stored word; note the decoder parses the
token `0(x6)` as the immediate 0, so the base register is `x0`, not `x6` —
the consistency property holds regardless.) -/
theorem store_load_consistency (s : Processor)
    (hprog : s.instructions = ["sw x5, 0(x6)", "lw x7, 0(x6)"])
    (hpc : s.pc = 0) :
    (executeInstruction (executeInstruction s)).registers 7 = s.registers 5 := by
  have hp1 : parseInstruction "sw x5, 0(x6)" = ("sw", [some 5, some 0]) := rfl
  have hp2 : parseInstruction "lw x7, 0(x6)" = ("lw", [some 7, some 0]) := rfl
  have hop1 : getOpcodeValue "sw" = 35 := rfl
  have hop2 : getOpcodeValue "lw" = 3 := rfl
  have hl1 : s.pc < Int.ofNat s.instructions.length := by rw [hpc, hprog]; decide
  have hg1 : s.instructions.getD s.pc.toNat "" = "sw x5, 0(x6)" := by rw [hprog, hpc]; rfl
  have h1 : executeInstruction s = execDecoded s "sw" [some 5, some 0] := by
    rw [executeInstruction_fetch s _ hl1 hg1, hp1]
  rw [h1]
  have hreg1 : (execDecoded s "sw" [some 5, some 0]).registers = s.registers := by
    simp [execDecoded, hop1]
  have hins1 : (execDecoded s "sw" [some 5, some 0]).instructions = s.instructions := by
    simp [execDecoded, hop1]
  have hpc1 : (execDecoded s "sw" [some 5, some 0]).pc = s.pc + 1 := by
    simp [execDecoded, hop1]
  have hmem1 : ∀ i, (execDecoded s "sw" [some 5, some 0]).memory i
      = if i = Int.tmod (Int.fdiv (s.registers 0) 4) 256
        then s.registers 5 else s.memory i := by
    intro i
    simp [execDecoded, hop1, getOp, readReg, jsOr]
  have hl2 : (execDecoded s "sw" [some 5, some 0]).pc
      < Int.ofNat (execDecoded s "sw" [some 5, some 0]).instructions.length := by
    rw [hpc1, hins1, hpc, hprog]; decide
  have hg2 : (execDecoded s "sw" [some 5, some 0]).instructions.getD
      (execDecoded s "sw" [some 5, some 0]).pc.toNat "" = "lw x7, 0(x6)" := by
    rw [hins1, hpc1, hpc, hprog]; rfl
  rw [executeInstruction_fetch _ _ hl2 hg2, hp2]
  simp [execDecoded, hop1, hop2, getOp, readReg, writeReg, jsOr]

/-- Witness for C5 from a state with `x5 = 77` stored in the register file. -/
theorem store_load_consistency_witness :
    (executeInstruction (executeInstruction
        { withProgram ["sw x5, 0(x6)", "lw x7, 0(x6)"] with
            registers := fun i => if i = 5 then 77 else 0 })).registers 7
      = ({ withProgram ["sw x5, 0(x6)", "lw x7, 0(x6)"] with
            registers := fun i => if i = 5 then 77 else 0 } : Processor).registers 5 :=
  store_load_consistency
    { withProgram ["sw x5, 0(x6)", "lw x7, 0(x6)"] with
        registers := fun i => if i = 5 then 77 else 0 } rfl rfl

/-- C1 amended: for an R-class or I-class instruction with destination `rd ≠ 0`,
the value written to `registers[rd]` is exactly the ALU function applied to the
documented operands (`registers[rs1]` and, for R-class, `registers[rs2]`, for
I-class the immediate itself).  The ALU coerces both operands to signed 32-bit
before combining, but additions and subtractions return the exact mathematical
result, which may exceed the signed 32-bit range — it is not wrapped modulo
2^32 (see the counterexample). -/
theorem rtype_itype_write_alu_result (s : Processor) (t m : String)
    (regs : List (Option Int)) (rd rs1 x : Int)
    (h1 : s.pc < Int.ofNat s.instructions.length)
    (h2 : s.instructions.getD s.pc.toNat "" = t)
    (h3 : parseInstruction t = (m, regs))
    (h4 : getOpcodeValue m = 51 ∨ getOpcodeValue m = 19)
    (h5 : getOp regs 0 = some rd)
    (h6 : getOp regs 1 = some rs1)
    (h7 : getOp regs 2 = some x)
    (h8 : rd ≠ 0) :
    (executeInstruction s).registers rd
      = executeALU m (s.registers rs1)
          (if getOpcodeValue m = 51 then s.registers x else x)
          (getFunct3 m) (getFunct7 m) ∧
    (∀ a b : Int, executeALU "add" a b (getFunct3 "add") (getFunct7 "add")
      = toSigned32 a + toSigned32 b) ∧
    (∀ a b : Int, executeALU "sub" a b (getFunct3 "sub") (getFunct7 "sub")
      = toSigned32 a - toSigned32 b) := by
  refine ⟨?_, fun a b => rfl, fun a b => rfl⟩
  rw [executeInstruction_fetch s t h1 h2, h3]
  cases h4 with
  | inl h =>
    rw [if_pos h]
    simp only [execDecoded, h, h5, h6, h7]
    norm_num [readReg, writeReg, h8]
  | inr h =>
    rw [if_neg (by rw [h]; decide)]
    simp only [execDecoded, h, h5, h6, h7]
    norm_num [readReg, writeReg, h8]

/-- Witness for C1 amended: `add x3, x1, x2` from the initial register file. -/
theorem rtype_itype_write_alu_result_witness :
    (executeInstruction (withProgram ["add x3, x1, x2"])).registers 3
      = executeALU "add" ((withProgram ["add x3, x1, x2"]).registers 1)
          (if getOpcodeValue "add" = 51
           then (withProgram ["add x3, x1, x2"]).registers 2 else 2)
          (getFunct3 "add") (getFunct7 "add") ∧
    (∀ a b : Int, executeALU "add" a b (getFunct3 "add") (getFunct7 "add")
      = toSigned32 a + toSigned32 b) ∧
    (∀ a b : Int, executeALU "sub" a b (getFunct3 "sub") (getFunct7 "sub")
      = toSigned32 a - toSigned32 b) :=
  rtype_itype_write_alu_result (withProgram ["add x3, x1, x2"]) "add x3, x1, x2" "add"
    [some 3, some 1, some 2] 3 1 2 (by decide) rfl rfl (Or.inl rfl) rfl rfl rfl (by decide)
